import Mathlib

/-!
Verification development for the mpi_learn driver (src/MPIDriver.py and
src/BuildModel.py).  The driver script wires command-line arguments into
the distributed-training components (`Algo`, `MPIManager`, `H5Data`,
worker/master processes); the components themselves are imported from
modules that are not part of the two source files, so their behaviour is
modelled from the specification where a claim depends on it, and each such
definition is marked `Modelled from the spec:` in its doc comment.
Numeric (Python float) quantities are embedded as rationals; Python 2
integer division on ints is embedded as natural-number division.
-/

namespace MPILearn

/-- The command-line argument record built by the driver's argparse
configuration (src/MPIDriver.py lines 28-67), restricted to the fields the
training setup reads.  `masters` is an `Int` because argparse accepts any
integer for `--masters`. -/
structure Args where
  masters : Int
  synchronous : Bool
  batch : Nat
  epochs : Nat
  optimizer : String
  loss : String
  worker_optimizer : String
  sync_every : Nat
  easgd : Bool
  elastic_force : Rat
  elastic_lr : Rat
deriving DecidableEq

/-- Embeds src/MPIDriver.py line 101: `validate_every = data.count_data()/args.batch`.
Both operands are Python 2 ints, so `/` is floor division. -/
def validate_every (count_data batch : Nat) : Nat :=
  count_data / batch

/-- The argument tuple passed to the `Algo` constructor at
src/MPIDriver.py lines 116-123.  Arguments the call site does not pass are
`none`; in the EASGD branch the first positional argument (the master
optimizer) is the literal `None`. -/
structure AlgoConfig where
  optimizer : Option String
  loss : String
  validate_every : Nat
  mode : Option String
  elastic_lr : Option Rat
  sync_every : Nat
  worker_optimizer : String
  elastic_force : Option Rat
deriving DecidableEq

/-- Embeds the `Algo` construction at src/MPIDriver.py lines 116-123:
in EASGD mode the optimizer argument is `None`, mode is the string easgd,
and the elastic force handed over is `args.elastic_force/(comm.Get_size()-1)`
(Python float division); otherwise `args.optimizer` is passed and the
EASGD hyperparameters are not. -/
def mkAlgo (args : Args) (comm_size : Nat) (validateEvery : Nat) : AlgoConfig :=
  if args.easgd then
    { optimizer := none
      loss := args.loss
      validate_every := validateEvery
      mode := some "easgd"
      elastic_lr := some args.elastic_lr
      sync_every := args.sync_every
      worker_optimizer := args.worker_optimizer
      elastic_force := some (args.elastic_force / ((comm_size : Rat) - 1)) }
  else
    { optimizer := some args.optimizer
      loss := args.loss
      validate_every := validateEvery
      mode := none
      elastic_lr := none
      sync_every := args.sync_every
      worker_optimizer := args.worker_optimizer
      elastic_force := none }

/-- Modelled from the spec: the EASGD worker-side synchronization of the
`Algo` class (the driver imports `.Algo`, which is not among the source
files).  The worker computes the elastic correction
`delta = elastic_lr * elastic_force * (worker_params - master_params)`,
subtracts `delta` from its own parameters, and signals the correction to
its master.  Returns (new worker parameters, signalled correction). -/
def easgdWorkerSync (elastic_lr elastic_force worker_params master_params : Rat) :
    Rat × Rat :=
  let delta := elastic_lr * elastic_force * (worker_params - master_params)
  (worker_params - delta, delta)

/-- Modelled from the spec: the EASGD master-side update of the `Algo`
class (not among the source files): the master adds the signalled
correction to its own snapshot immediately upon receipt. -/
def easgdMasterReceive (master_params correction : Rat) : Rat :=
  master_params + correction

/-- Modelled from the spec: synchronous-mode aggregation by a master (the
master-process code is not among the source files).  The master averages
the workers' delta contributions (arithmetic mean) and applies the mean to
its parameter. -/
def syncAggregate (master_params : Rat) (deltas : List Rat) : Rat :=
  master_params + deltas.sum / (deltas.length : Rat)

/-- Modelled from the spec: synchronous-mode broadcast (the worker-process
code is not among the source files): every owned worker overwrites its
local parameter with the master's new averaged snapshot. -/
def syncBroadcast (workers : List Rat) (new_params : Rat) : List Rat :=
  workers.map (fun _ => new_params)

/-- Per-worker training state: the round counter, a monotonically
increasing count of batches processed. -/
structure WorkerState where
  round : Nat
deriving DecidableEq

/-- Modelled from the spec: one iteration of the worker training loop (the
worker-process code is not among the source files).  Processing a batch
increments the round counter exactly once; a synchronization with the
owning master is due exactly when `round % sync_every == 0` afterwards.
Returns (new state, whether this batch triggered a sync). -/
def processBatch (sync_every : Nat) (s : WorkerState) : WorkerState × Bool :=
  let s' : WorkerState := ⟨s.round + 1⟩
  (s', s'.round % sync_every == 0)

/-- Modelled from the spec: running the worker loop over `n` consecutive
batches, collecting the sync decisions in order. -/
def runBatches (sync_every : Nat) (s : WorkerState) : Nat → WorkerState × List Bool
  | 0 => (s, [])
  | n + 1 =>
    let step := processBatch sync_every s
    let rest := runBatches sync_every step.1 n
    (rest.1, step.2 :: rest.2)

/-- The error kinds of the error-handling taxonomy that the driver can
surface before training starts. -/
inductive MPIError where
  | ConfigurationError
deriving DecidableEq

/-- Modelled from the spec: the worker-to-master assignment used by the
topology (the `MPIManager` module is not among the source files).  Workers
are dealt to the master groups round-robin, which is deterministic and
balanced within one worker. -/
def assignMaster (num_masters : Nat) (workerIdx : Nat) : Nat :=
  workerIdx % num_masters

/-- The topology record produced by a successful construction: the total
process count and the number of master groups. -/
structure Topology where
  num_procs : Nat
  num_masters : Nat
deriving DecidableEq

/-- The set of worker indices owned by master group `m`, out of `W`
workers dealt round-robin to `M` groups. -/
def workersOfMaster (W M m : Nat) : Finset Nat :=
  (Finset.range W).filter (fun i => assignMaster M i = m)

/-- Modelled from the spec: `MPIManager` construction (src/MPIDriver.py
lines 107-110 invoke it; the module is not among the source files).  It
fails with `ConfigurationError` when the requested master count is at
least the total process count or at most zero, before any process begins
training; otherwise it yields the topology. -/
def mkTopology (num_procs : Nat) (num_masters : Int) :
    Except MPIError Topology :=
  if (num_procs : Int) ≤ num_masters ∨ num_masters ≤ 0 then
    .error .ConfigurationError
  else
    .ok ⟨num_procs, num_masters.toNat⟩

/-- Embeds the keras import retry loop at src/MPIDriver.py lines 87-94:
`for try_num in range(10)`, attempting the import each iteration and
breaking out of the loop at the first success.  `succeeds i` abstracts
whether attempt `i` imports without raising ValueError.  Returns the index
of the first successful attempt within the budget, if any. -/
def importKeras (succeeds : Nat → Bool) : Option Nat :=
  (List.range 10).find? (fun i => succeeds i)

/-- The number of loop iterations the retry loop at lines 87-94 actually
executes: it stops right after the first success and otherwise exhausts
all 10 iterations of `range(10)`. -/
def importAttemptsMade (succeeds : Nat → Bool) : Nat :=
  match importKeras succeeds with
  | some i => i + 1
  | none => 10

/-- The statements the driver executes around the import retry loop,
src/MPIDriver.py lines 87-105. -/
inductive Action where
  | importAttempt (try_num : Nat)
  | buildH5Data
  | setValidateEvery
  | appendCheckpointCallback
  | raiseFatal
  | raiseNameError
deriving DecidableEq

/-- Embeds the straight-line control flow of src/MPIDriver.py lines 87-105
as the sequence of executed actions.  After the retry loop the driver
unconditionally constructs the `H5Data` object (line 98) and computes
`validate_every` (line 101); constructing the checkpoint callback
(line 103) references the name `cbks`, which is unbound — raising a
NameError — exactly when no import attempt succeeded. -/
def driverTrace (succeeds : Nat → Bool) : List Action :=
  (List.range (importAttemptsMade succeeds)).map Action.importAttempt
    ++ [Action.buildH5Data, Action.setValidateEvery]
    ++ (if (importKeras succeeds).isSome then [Action.appendCheckpointCallback]
        else [Action.raiseNameError])

/-- A master's history record: metric name mapped to the ordered sequence
of recorded values. -/
abbrev History := List (String × List Rat)

/-- Modelled from the spec: `manager.process.train()` on rank 0 gathers
each master's history record and merges them into one record keyed by the
master (the `MPIManager`/process code is not among the source files); the
merge combines the per-master records into a single mapping. -/
def mergeHistories (perMaster : List (Nat × History)) : List (Nat × History) :=
  perMaster

/-- The output dictionary written as the run-history artifact at
src/MPIDriver.py lines 134-138: the full argument record (`vars(args)`,
i.e. the hyperparameters used), the histories, and the training time. -/
structure OutDict where
  args : Args
  history : List (Nat × History)
  train_time : Rat
deriving DecidableEq

/-- Embeds the rank-0 epilogue of src/MPIDriver.py lines 128-141: training
runs between the two clock reads `t_0` and `t_end`, producing the merged
histories; the elapsed time is `t_end - t_0`; the output dictionary holds
the args, the histories and the training time.  Returns
((histories, delta_t), out_dict). -/
def rank0Finish (args : Args) (perMasterHistories : List (Nat × History))
    (t_0 t_end : Rat) : (List (Nat × History) × Rat) × OutDict :=
  let histories := mergeHistories perMasterHistories
  let delta_t := t_end - t_0
  ((histories, delta_t),
   { args := args, history := histories, train_time := delta_t })

/-! Theorems settling the claims. -/

/-- C1: In EASGD mode with elastic_force = 0.1, elastic_lr = 1.0, a single
scalar worker parameter 5.0 and master parameter 0.0, one worker-side sync
moves the worker parameter to 4.5 and signals +0.5; the master adds the
signalled correction on receipt, updating its parameter to 0.5.  In
general the worker subtracts
`delta = elastic_lr * elastic_force * (worker_params - master_params)` and
the master adds the signalled correction. -/
theorem easgd_sync_scenario :
    (easgdWorkerSync 1 (1/10) 5 0).1 = 9/2
    ∧ (easgdWorkerSync 1 (1/10) 5 0).2 = 1/2
    ∧ easgdMasterReceive 0 (easgdWorkerSync 1 (1/10) 5 0).2 = 1/2
    ∧ (∀ lr f w m : Rat,
        (easgdWorkerSync lr f w m).1 = w - lr * f * (w - m)
        ∧ (easgdWorkerSync lr f w m).2 = lr * f * (w - m))
    ∧ (∀ m c : Rat, easgdMasterReceive m c = m + c) := by
  refine ⟨by norm_num [easgdWorkerSync], by norm_num [easgdWorkerSync],
    by norm_num [easgdWorkerSync, easgdMasterReceive],
    fun lr f w m => ⟨rfl, rfl⟩, fun m c => rfl⟩

/-- C2: In synchronous mode with one master, two workers, a scalar
parameter starting at 0.0 and worker deltas +1.0 and +3.0, the master's
post-round parameter is 2.0 (the arithmetic mean of the contributions) and
after the broadcast both owned workers hold 2.0; in general aggregating a
nonempty list of contributions applies their arithmetic mean. -/
theorem sync_round_mean (m : Rat) (ds : List Rat) (h : ds ≠ []) :
    syncAggregate 0 [1, 3] = 2
    ∧ (∀ w1 w2 : Rat, syncBroadcast [w1, w2] (syncAggregate 0 [1, 3]) = [2, 2])
    ∧ syncAggregate m ds = m + ds.sum / (ds.length : Rat) := by
  refine ⟨by norm_num [syncAggregate], ?_, rfl⟩
  intro w1 w2
  have h2 : syncAggregate 0 [1, 3] = 2 := by norm_num [syncAggregate]
  rw [h2]
  rfl

/-- Witness for C2 at the scenario input. -/
theorem sync_round_mean_witness :
    ([1, 3] : List Rat) ≠ []
    ∧ (syncAggregate 0 [1, 3] = 2
      ∧ (∀ w1 w2 : Rat, syncBroadcast [w1, w2] (syncAggregate 0 [1, 3]) = [2, 2])
      ∧ syncAggregate 0 [1, 3] = 0 + ([1, 3] : List Rat).sum / (([1, 3] : List Rat).length : Rat)) :=
  ⟨by simp, sync_round_mean 0 [1, 3] (by simp)⟩

/-- C3 counterexample: with 50 training examples and batch size 100 the
driver's `validate_every = data.count_data()/args.batch` (Python 2 floor
division) is 0, which is not positive — refuting the claim that
`validate_every` is positive even when the example count is smaller than
the batch size. -/
theorem validate_every_zero_cex :
    validate_every 50 100 = 0 ∧ ¬ 0 < validate_every 50 100 := by
  decide

/-- C3 amended: the driver derives `validate_every` as the floor division
of the example count by the batch size; it is positive exactly when the
batch size is at most the example count, and 0 when the example count is
smaller than the batch size. -/
theorem validate_every_floor_div (count batch : Nat) (hb : 0 < batch) :
    validate_every count batch = count / batch
    ∧ (0 < validate_every count batch ↔ batch ≤ count) := by
  refine ⟨rfl, ⟨fun hpos => ?_, fun hle => Nat.div_pos hle hb⟩⟩
  by_contra hlt
  rw [validate_every, Nat.div_eq_of_lt (Nat.lt_of_not_le hlt)] at hpos
  exact Nat.lt_irrefl 0 hpos

/-- Witness for C3 (amended) at count 200, batch 100. -/
theorem validate_every_floor_div_witness :
    0 < 100
    ∧ (validate_every 200 100 = 200 / 100
      ∧ (0 < validate_every 200 100 ↔ 100 ≤ 200)) :=
  ⟨by decide, validate_every_floor_div 200 100 (by decide)⟩

/-- C4: when EASGD is selected, the elastic force handed to the `Algo`
constructor is not necessarily the CLI value: for every process count of
at least 2 it equals the CLI value divided by (process count - 1). -/
theorem easgd_elastic_force_scaled (args : Args) (comm_size validateEvery : Nat)
    (heasgd : args.easgd = true) (hsize : 2 ≤ comm_size) :
    (mkAlgo args comm_size validateEvery).elastic_force
      = some (args.elastic_force / ((comm_size : Rat) - 1)) := by
  rw [mkAlgo, if_pos heasgd]

/-- Witness for C4: CLI value 0.9 with 3 processes yields 0.45. -/
theorem easgd_elastic_force_scaled_witness :
    ({ masters := 1, synchronous := false, batch := 100, epochs := 1,
       optimizer := "rmsprop", loss := "binary_crossentropy",
       worker_optimizer := "sgd", sync_every := 1, easgd := true,
       elastic_force := 9/10, elastic_lr := 1 : Args }).easgd = true
    ∧ (mkAlgo
        { masters := 1, synchronous := false, batch := 100, epochs := 1,
          optimizer := "rmsprop", loss := "binary_crossentropy",
          worker_optimizer := "sgd", sync_every := 1, easgd := true,
          elastic_force := 9/10, elastic_lr := 1 } 3 7).elastic_force
      = some ((9/10 : Rat) / ((3 : Rat) - 1)) :=
  ⟨rfl, easgd_elastic_force_scaled _ 3 7 rfl (by norm_num)⟩

/-- C7: whenever the requested master-group count is at least the total
process count, or at most 0, construction fails with `ConfigurationError`
and yields no topology, so no process begins training. -/
theorem mkTopology_config_error (num_procs : Nat) (num_masters : Int)
    (h : (num_procs : Int) ≤ num_masters ∨ num_masters ≤ 0) :
    mkTopology num_procs num_masters = .error .ConfigurationError := by
  rw [mkTopology, if_pos h]

/-- Witness for C7: 4 processes with 4 requested masters fail. -/
theorem mkTopology_config_error_witness :
    ((4 : Nat) : Int) ≤ (4 : Int)
    ∧ mkTopology 4 4 = .error .ConfigurationError :=
  ⟨by decide, mkTopology_config_error 4 4 (Or.inl (by decide))⟩

/-- C9: the rank-0 epilogue returns the merged histories together with the
wall-clock time elapsed around the training call, and the persisted
run-history dictionary contains the hyperparameter record (`args`), the
histories, and the total training time — equal to the returned values. -/
theorem rank0_out_dict (args : Args) (perMaster : List (Nat × History))
    (t_0 t_end : Rat) :
    (rank0Finish args perMaster t_0 t_end).1.1 = mergeHistories perMaster
    ∧ (rank0Finish args perMaster t_0 t_end).1.2 = t_end - t_0
    ∧ (rank0Finish args perMaster t_0 t_end).2.args = args
    ∧ (rank0Finish args perMaster t_0 t_end).2.history
        = (rank0Finish args perMaster t_0 t_end).1.1
    ∧ (rank0Finish args perMaster t_0 t_end).2.train_time
        = (rank0Finish args perMaster t_0 t_end).1.2 :=
  ⟨rfl, rfl, rfl, rfl, rfl⟩

/-- C10: with the EASGD flag set, the `Algo` constructed by the driver is
independent of the `--optimizer` argument — two argument records that
differ only in `optimizer` produce the same `Algo` arguments, and the
master-side optimizer passed is `None`. -/
theorem easgd_algo_ignores_optimizer (args : Args) (o1 o2 : String)
    (comm_size validateEvery : Nat) (heasgd : args.easgd = true) :
    mkAlgo { args with optimizer := o1 } comm_size validateEvery
      = mkAlgo { args with optimizer := o2 } comm_size validateEvery
    ∧ (mkAlgo { args with optimizer := o1 } comm_size validateEvery).optimizer
      = none := by
  have h1 : ({ args with optimizer := o1 } : Args).easgd = true := heasgd
  have h2 : ({ args with optimizer := o2 } : Args).easgd = true := heasgd
  rw [mkAlgo, if_pos h1, mkAlgo, if_pos h2]
  exact ⟨rfl, rfl⟩

/-- Witness for C10: swapping `--optimizer` between rmsprop and adam under
EASGD leaves the constructed `Algo` arguments unchanged. -/
theorem easgd_algo_ignores_optimizer_witness :
    ({ masters := 1, synchronous := false, batch := 100, epochs := 1,
       optimizer := "rmsprop", loss := "binary_crossentropy",
       worker_optimizer := "sgd", sync_every := 1, easgd := true,
       elastic_force := 9/10, elastic_lr := 1 : Args }).easgd = true
    ∧ (mkAlgo
        { { masters := 1, synchronous := false, batch := 100, epochs := 1,
            optimizer := "rmsprop", loss := "binary_crossentropy",
            worker_optimizer := "sgd", sync_every := 1, easgd := true,
            elastic_force := 9/10, elastic_lr := 1 : Args } with
          optimizer := "rmsprop" } 3 7
      = mkAlgo
        { { masters := 1, synchronous := false, batch := 100, epochs := 1,
            optimizer := "rmsprop", loss := "binary_crossentropy",
            worker_optimizer := "sgd", sync_every := 1, easgd := true,
            elastic_force := 9/10, elastic_lr := 1 : Args } with
          optimizer := "adam" } 3 7
      ∧ (mkAlgo
          { { masters := 1, synchronous := false, batch := 100, epochs := 1,
              optimizer := "rmsprop", loss := "binary_crossentropy",
              worker_optimizer := "sgd", sync_every := 1, easgd := true,
              elastic_force := 9/10, elastic_lr := 1 : Args } with
            optimizer := "rmsprop" } 3 7).optimizer = none) :=
  ⟨rfl, easgd_algo_ignores_optimizer _ "rmsprop" "adam" 3 7 rfl⟩

/-- C8 counterexample: when every import attempt fails, the retry loop
makes its full budget of 10 attempts, and then the driver continues
executing — the action at position 10 of the trace is the `H5Data`
construction, and no fatal-error raise occurs at the exhausted budget. -/
theorem import_retry_cex :
    importAttemptsMade (fun _ => false) = 10
    ∧ (driverTrace (fun _ => false))[10]? = some Action.buildH5Data
    ∧ Action.raiseFatal ∉ driverTrace (fun _ => false) := by
  decide

/-- C8 amended: the retry loop is bounded at 10 attempts; when every
attempt in the budget fails, the loop exits without raising and execution
continues past the exhausted budget — the driver builds the data object
and computes `validate_every`, and the run only fails afterwards with a
NameError when callback construction references the never-imported keras
names. -/
theorem import_retry_bounded_continues (succeeds : Nat → Bool)
    (h : ∀ i, i < 10 → succeeds i = false) :
    importAttemptsMade succeeds = 10
    ∧ driverTrace succeeds
      = (List.range 10).map Action.importAttempt
        ++ [Action.buildH5Data, Action.setValidateEvery, Action.raiseNameError] := by
  have hnone : importKeras succeeds = none := by
    rw [importKeras, List.find?_eq_none]
    intro i hi
    rw [List.mem_range] at hi
    simp [h i hi]
  have hmade : importAttemptsMade succeeds = 10 := by
    rw [importAttemptsMade, hnone]
  refine ⟨hmade, ?_⟩
  rw [driverTrace, hmade, hnone]
  rfl

/-- Witness for C8 (amended) with the all-failing import predicate. -/
theorem import_retry_bounded_continues_witness :
    importAttemptsMade (fun _ => false) = 10
    ∧ driverTrace (fun _ => false)
      = (List.range 10).map Action.importAttempt
        ++ [Action.buildH5Data, Action.setValidateEvery, Action.raiseNameError] :=
  import_retry_bounded_continues (fun _ => false) (fun _ _ => rfl)

/-- C5: over any run of `n` batches, the worker's round counter is
incremented exactly once per batch (ending at the start value plus `n`),
and the sync decisions are exactly the predicate `round % sync_every == 0`
evaluated at the successive post-increment rounds — never off by one. -/
theorem worker_round_sync_cadence (sync_every : Nat) (s : WorkerState) (n : Nat) :
    (runBatches sync_every s n).1.round = s.round + n
    ∧ (runBatches sync_every s n).2
      = (List.range n).map (fun k => (s.round + k + 1) % sync_every == 0) := by
  induction n generalizing s with
  | zero => exact ⟨rfl, rfl⟩
  | succ n ih =>
    obtain ⟨ih1, ih2⟩ := ih ⟨s.round + 1⟩
    have hstep : runBatches sync_every s (n + 1)
        = ((runBatches sync_every ⟨s.round + 1⟩ n).1,
           ((s.round + 1) % sync_every == 0)
             :: (runBatches sync_every ⟨s.round + 1⟩ n).2) := rfl
    rw [hstep]
    constructor
    · rw [ih1]
      show s.round + 1 + n = s.round + (n + 1)
      omega
    · rw [ih2, List.range_succ_eq_map, List.map_cons, List.map_map]
      refine congrArg₂ _ (by rw [Nat.add_zero]) (List.map_congr_left ?_)
      intro k _
      have harith : WorkerState.round ⟨s.round + 1⟩ + k + 1
          = s.round + (k + 1) + 1 := by
        show s.round + 1 + k + 1 = s.round + (k + 1) + 1
        omega
      simp only [Function.comp, harith, Nat.succ_eq_add_one]

/-- Auxiliary: successor of a natural number modulo `M`, written without
division. -/
lemma succ_mod_formula (M W : Nat) (hM : 0 < M) :
    (W + 1) % M = if W % M + 1 = M then 0 else W % M + 1 := by
  have hlt : W % M < M := Nat.mod_lt W hM
  have hcast : (W + 1) % M = (W % M + 1) % M := (Nat.mod_add_mod W M 1).symm
  split
  case isTrue h =>
    rw [hcast, h, Nat.mod_self]
  case isFalse h =>
    rw [hcast, Nat.mod_eq_of_lt (by omega)]

/-- Auxiliary: successor of a natural number divided by `M`, written
without divisibility. -/
lemma succ_div_formula (M W : Nat) (hM : 0 < M) :
    (W + 1) / M = if W % M + 1 = M then W / M + 1 else W / M := by
  have hmod := succ_mod_formula M W hM
  split
  case isTrue h =>
    refine Nat.succ_div_of_dvd ⟨W / M + 1, ?_⟩
    have h1 : M * (W / M) + W % M = W := Nat.div_add_mod W M
    rw [Nat.mul_add, Nat.mul_one]
    generalize M * (W / M) = p at h1 ⊢
    generalize W % M = r at h h1
    omega
  case isFalse h =>
    refine Nat.succ_div_of_not_dvd fun hdvd => ?_
    have hz : (W + 1) % M = 0 := Nat.mod_eq_zero_of_dvd hdvd
    rw [hmod, if_neg h] at hz
    omega

/-- Auxiliary: the number of indices below `W` in residue class `m` modulo
`M` is `W / M`, plus one for the first `W % M` classes. -/
lemma range_filter_mod_card (M m : Nat) (hM : 0 < M) (hmM : m < M) (W : Nat) :
    ((Finset.range W).filter (fun i => i % M = m)).card
      = W / M + if m < W % M then 1 else 0 := by
  induction W with
  | zero => simp
  | succ W ih =>
    rw [Finset.range_succ, Finset.filter_insert]
    have hd := succ_div_formula M W hM
    have hm2 := succ_mod_formula M W hM
    by_cases h : W % M = m
    · rw [if_pos h, Finset.card_insert_of_not_mem (by simp), ih, hd, hm2]
      generalize W / M = q at *
      generalize W % M = r at *
      split_ifs <;> omega
    · rw [if_neg h, ih, hd, hm2]
      generalize W / M = q at *
      generalize W % M = r at *
      split_ifs <;> omega

/-- C6: for every worker count of at least 1 and master-group count of at
least 1 (hence below the total process count), the round-robin topology
assignment gives every worker exactly one owning master among the `M`
groups, the groups partition the worker set (their union is the whole
worker set and distinct groups are disjoint, so no worker is unassigned
and every master group is well defined), and any two group sizes differ by
at most 1. -/
theorem topology_partition_balanced (W M : Nat) (hW : 1 ≤ W) (hM : 1 ≤ M) :
    (∀ i ∈ Finset.range W, ∃! m, m ∈ Finset.range M ∧ i ∈ workersOfMaster W M m)
    ∧ (Finset.range M).biUnion (workersOfMaster W M) = Finset.range W
    ∧ (∀ m1 ∈ Finset.range M, ∀ m2 ∈ Finset.range M, m1 ≠ m2 →
        Disjoint (workersOfMaster W M m1) (workersOfMaster W M m2))
    ∧ (∀ m1 ∈ Finset.range M, ∀ m2 ∈ Finset.range M,
        (workersOfMaster W M m1).card ≤ (workersOfMaster W M m2).card + 1) := by
  have hmem : ∀ i m, i ∈ workersOfMaster W M m ↔ i < W ∧ i % M = m := by
    intro i m
    simp [workersOfMaster, assignMaster]
  refine ⟨?_, ?_, ?_, ?_⟩
  · intro i hi
    rw [Finset.mem_range] at hi
    refine ⟨i % M, ⟨Finset.mem_range.mpr (Nat.mod_lt i hM), (hmem i (i % M)).mpr ⟨hi, rfl⟩⟩, ?_⟩
    intro m hm
    exact ((hmem i m).mp hm.2).2.symm
  · ext i
    rw [Finset.mem_biUnion, Finset.mem_range]
    constructor
    · rintro ⟨m, _, hi⟩
      exact ((hmem i m).mp hi).1
    · intro hi
      exact ⟨i % M, Finset.mem_range.mpr (Nat.mod_lt i hM), (hmem i (i % M)).mpr ⟨hi, rfl⟩⟩
  · intro m1 _ m2 _ hne
    rw [Finset.disjoint_left]
    intro i h1 h2
    exact hne (((hmem i m1).mp h1).2.symm.trans ((hmem i m2).mp h2).2)
  · intro m1 hm1 m2 hm2
    rw [Finset.mem_range] at hm1 hm2
    have c1 := range_filter_mod_card M m1 hM hm1 W
    have c2 := range_filter_mod_card M m2 hM hm2 W
    have e1 : (workersOfMaster W M m1).card
        = W / M + if m1 < W % M then 1 else 0 := c1
    have e2 : (workersOfMaster W M m2).card
        = W / M + if m2 < W % M then 1 else 0 := c2
    rw [e1, e2]
    split_ifs <;> omega

/-- Witness for C6 at 5 workers and 2 master groups. -/
theorem topology_partition_balanced_witness :
    ((1 : Nat) ≤ 5 ∧ (1 : Nat) ≤ 2)
    ∧ (workersOfMaster 5 2 0).card ≤ (workersOfMaster 5 2 1).card + 1 :=
  ⟨by decide,
    (topology_partition_balanced 5 2 (by decide) (by decide)).2.2.2
      0 (by decide) 1 (by decide)⟩

end MPILearn
